import Mathlib

/-!
Shape dispatch: four strategies of `4_visitor.cpp`

A shallow embedding of the four namespaces of `src/4_visitor.cpp`
(`procedural_solution`, `OO_solution`, `visitor_pattern`, `std_variant_visitor`)
and the properties of their `drawAllShapes` functions.

Modelling conventions.

* `std::cout` is a global stream; every function that writes to it takes the
  characters written so far (`Ostream`) and returns the extended stream.
* A `double` is never computed with in this program, only stored and handed
  on, so it is represented by its IEEE-754 binary64 bit pattern.
* `std::vector<T>` is a `List T`; a range-based `for` is structural recursion
  over that list, front to back.
* A `std::unique_ptr<Shape>` element is represented by the complete object it
  owns (the handles of this program all come from `std::make_unique` and are
  never null).  The dynamic type of the object is the constructor of the sum.
* A virtual call is a case distinction on the dynamic type that selects the
  overrider of that class.
* A `static_cast` of a base reference to a class that is not the dynamic type
  has no defined behaviour; it is `none`, and the functions that perform such
  casts return `Option`.
* Where a property speaks of the collection after a call, the functions are
  also given on the program state `World` (the elements of the vector and the
  stream), the loop variable being a position in the vector; these runs are
  proved to agree with the functions on the stream alone.
-/

/-! ## Common definitions -/

/-- The type `double`, as a binary64 bit pattern. -/
abbrev Double := Fin (2 ^ 64)

/-- The literal `2.3`. -/
def lit_2_3 : Double := 0x4002666666666666

/-- The literal `1.2`. -/
def lit_1_2 : Double := 0x3ff3333333333333

/-- The literal `4.1`. -/
def lit_4_1 : Double := 0x4010666666666666

/-- The struct `Point` of the source. -/
structure Point where
  x : Double
  y : Double
deriving DecidableEq, Repr

/-- Value initialisation `Point center_ {}`: both coordinates are `+0.0`. -/
def Point.zero : Point := { x := 0, y := 0 }

/-- The characters written to `std::cout` so far. -/
abbrev Ostream := List Char

/-- The stream insertion `std::cout << s` for a string literal `s`. -/
def Ostream.put (out : Ostream) (s : String) : Ostream := out ++ s.data

/-- The line terminator, the character written for `\n`. -/
def newline : Char := Char.ofNat 10

/-- Cut a character sequence into lines at each terminator; `cur` holds the
characters of the line being read.  Text after the last terminator, if any,
is a last line. -/
def linesAux : List Char → List Char → List String
  | cur, [] => if cur = [] then [] else [String.mk cur]
  | cur, c :: cs =>
    if c = newline then String.mk cur :: linesAux [] cs
    else linesAux (cur ++ [c]) cs

/-- The lines of text on a stream. -/
def Ostream.lines (out : Ostream) : List String := linesAux [] out

/-! ## `namespace procedural_solution` -/

namespace procedural_solution

/-- The unscoped enumeration `ShapeType`, represented by the integral value
of its enumerators, so that a `switch` without a `default` label can be stated
as written. -/
abbrev ShapeType := Nat

/-- Enumerator `circle`, the first of `ShapeType`. -/
def circle : ShapeType := 0

/-- Enumerator `square`, the second of `ShapeType`. -/
def square : ShapeType := 1

/-- The base class `Shape`: one data member, `type_`. -/
structure Shape where
  type_ : ShapeType
deriving DecidableEq, Repr

/-- The protected constructor `Shape(ShapeType type) : type_(type)`. -/
def Shape.create (type : ShapeType) : Shape := { type_ := type }

/-- The member function `getType() const`. -/
def Shape.getType (self : Shape) : ShapeType := self.type_

/-- The class `Circle : public Shape`. -/
structure Circle extends Shape where
  radius_ : Double
  center_ : Point
deriving DecidableEq, Repr

/-- The constructor `Circle(double radius) : Shape(circle), radius_(radius)`;
`center_` takes its default member initialiser. -/
def Circle.create (radius : Double) : Circle :=
  { toShape := Shape.create circle, radius_ := radius, center_ := Point.zero }

/-- The free function `draw(Circle const&)`. -/
def draw_Circle (_c : Circle) (out : Ostream) : Ostream := out.put "draw circle\n"

/-- The class `Square : public Shape`. -/
structure Square extends Shape where
  side_ : Double
  center_ : Point
deriving DecidableEq, Repr

/-- The constructor `Square(double side) : Shape(square), side_(side)`. -/
def Square.create (side : Double) : Square :=
  { toShape := Shape.create square, side_ := side, center_ := Point.zero }

/-- The free function `draw(Square const&)`. -/
def draw_Square (_c : Square) (out : Ostream) : Ostream := out.put "draw square\n"

/-- The complete object behind a `std::unique_ptr<Shape>`: its dynamic type is
`Circle` or `Square` (the constructor of `Shape` is protected, and the program
creates objects through the constructors of `Circle` and `Square` only). -/
inductive Object where
  | ofCircle (c : Circle)
  | ofSquare (s : Square)
deriving DecidableEq, Repr

/-- The dereference `*shape`, seen at its static type `Shape`: the base class
subobject. -/
def Object.deref : Object → Shape
  | .ofCircle c => c.toShape
  | .ofSquare s => s.toShape

/-- The cast `static_cast<Circle const&>(*shape)`, defined only when the
dynamic type is `Circle`. -/
def static_cast_Circle : Object → Option Circle
  | .ofCircle c => some c
  | .ofSquare _ => none

/-- The cast `static_cast<Square const&>(*shape)`, defined only when the
dynamic type is `Square`. -/
def static_cast_Square : Object → Option Square
  | .ofCircle _ => none
  | .ofSquare s => some s

/-- The body of the loop of `drawAllShapes`: the `switch` on
`shape->getType()` with its two `case` labels and no `default`. -/
def drawAllShapes.body (shape : Object) (out : Ostream) : Option Ostream :=
  if shape.deref.getType = circle then
    (static_cast_Circle shape).map (fun c => draw_Circle c out)
  else if shape.deref.getType = square then
    (static_cast_Square shape).map (fun s => draw_Square s out)
  else
    some out

/-- The function `drawAllShapes(std::vector<std::unique_ptr<Shape>> const&)`. -/
def drawAllShapes : List Object → Ostream → Option Ostream
  | [], out => some out
  | shape :: rest, out =>
    (drawAllShapes.body shape out).bind (drawAllShapes rest)

/-- The expression `std::make_unique<Circle>(radius)`, converted to a handle
on `Shape`. -/
def make_unique_Circle (radius : Double) : Object := .ofCircle (Circle.create radius)

/-- The expression `std::make_unique<Square>(side)`, converted to a handle
on `Shape`. -/
def make_unique_Square (side : Double) : Object := .ofSquare (Square.create side)

end procedural_solution

/-! ## `namespace OO_solution` -/

namespace OO_solution

/-- The class `Circle : public Shape`. -/
structure Circle where
  radius_ : Double
  center_ : Point
deriving DecidableEq, Repr

/-- The constructor `Circle(double radius) : radius_(radius)`. -/
def Circle.create (radius : Double) : Circle :=
  { radius_ := radius, center_ := Point.zero }

/-- The overrider `Circle::draw() const`. -/
def Circle.draw (_self : Circle) (out : Ostream) : Ostream := out.put "draw circle\n"

/-- The class `Square : public Shape`. -/
structure Square where
  side_ : Double
  center_ : Point
deriving DecidableEq, Repr

/-- The constructor `Square(double side) : side_(side)`. -/
def Square.create (side : Double) : Square :=
  { side_ := side, center_ := Point.zero }

/-- The overrider `Square::draw() const`. -/
def Square.draw (_self : Square) (out : Ostream) : Ostream := out.put "draw square\n"

/-- The abstract class `Shape` (no data members): an object seen through it
is a complete `Circle` or a complete `Square`. -/
inductive Shape where
  | ofCircle (c : Circle)
  | ofSquare (s : Square)
deriving DecidableEq, Repr

/-- The virtual call `shape->draw()`: the final overrider of the dynamic type
runs. -/
def Shape.draw : Shape → Ostream → Ostream
  | .ofCircle c, out => c.draw out
  | .ofSquare s, out => s.draw out

/-- The function `drawAllShapes(std::vector<std::unique_ptr<Shape>> const&)`. -/
def drawAllShapes : List Shape → Ostream → Ostream
  | [], out => out
  | shape :: rest, out => drawAllShapes rest (shape.draw out)

end OO_solution

/-! ## `namespace visitor_pattern` -/

namespace visitor_pattern

/-- The class `Circle : public Shape` (data members). -/
structure Circle where
  radius_ : Double
  center_ : Point
deriving DecidableEq, Repr

/-- The constructor `Circle(double radius) : radius_(radius)`. -/
def Circle.create (radius : Double) : Circle :=
  { radius_ := radius, center_ := Point.zero }

/-- The class `Square : public Shape` (data members). -/
structure Square where
  side_ : Double
  center_ : Point
deriving DecidableEq, Repr

/-- The constructor `Square(double side) : side_(side)`. -/
def Square.create (side : Double) : Square :=
  { side_ := side, center_ := Point.zero }

/-- The abstract class `ShapeVisitor`: an object of a class derived from it
is given by its two overriders, `visit(Circle const&)` and
`visit(Square const&)`.  The overriders return `void`; what they do is a
transformation of the state `σ` they act on (for `Draw`, the stream). -/
structure ShapeVisitor (σ : Type) where
  visit_Circle : Circle → σ → σ
  visit_Square : Square → σ → σ

/-- The class `Draw : public ShapeVisitor`. -/
def Draw : ShapeVisitor Ostream where
  visit_Circle := fun _c out => out.put "draw circle\n"
  visit_Square := fun _s out => out.put "draw square\n"

/-- The overrider `Circle::accept(ShapeVisitor const& v) const`, whose body is
`v.visit(*this)`: overload resolution picks `visit(Circle const&)`. -/
def Circle.accept {σ : Type} (self : Circle) (v : ShapeVisitor σ) : σ → σ :=
  v.visit_Circle self

/-- The overrider `Square::accept(ShapeVisitor const& v) const`, whose body is
`v.visit(*this)`: overload resolution picks `visit(Square const&)`. -/
def Square.accept {σ : Type} (self : Square) (v : ShapeVisitor σ) : σ → σ :=
  v.visit_Square self

/-- The abstract class `Shape` (no data members): an object seen through it
is a complete `Circle` or a complete `Square`. -/
inductive Shape where
  | ofCircle (c : Circle)
  | ofSquare (s : Square)
deriving DecidableEq, Repr

/-- The virtual call `shape->accept(v)`: the overrider of the dynamic type
runs. -/
def Shape.accept {σ : Type} : Shape → ShapeVisitor σ → σ → σ
  | .ofCircle c, v => c.accept v
  | .ofSquare s, v => s.accept v

/-- The function `drawAllShapes(std::vector<std::unique_ptr<Shape>> const&)`. -/
def drawAllShapes : List Shape → Ostream → Ostream
  | [], out => out
  | shape :: rest, out => drawAllShapes rest (shape.accept Draw out)

end visitor_pattern

/-! ## `std::variant` and `std::visit` -/

namespace std

/-- The class template `std::variant<A, B>` with two alternatives: a value
holds an `A` (index 0) or a `B` (index 1). -/
inductive variant (α β : Type) where
  | index0 (a : α)
  | index1 (b : β)
deriving DecidableEq, Repr

/-- A callable that can be invoked with either alternative: one call operator
for each. -/
structure Callable (α β ρ : Type) where
  call0 : α → ρ
  call1 : β → ρ

/-- The function template `std::visit(vis, var)`: invokes the callable with
the alternative the variant holds. -/
def visit {α β ρ : Type} (vis : Callable α β ρ) : variant α β → ρ
  | .index0 a => vis.call0 a
  | .index1 b => vis.call1 b

end std

/-! ## `namespace std_variant_visitor` -/

namespace std_variant_visitor

/-- The class `Circle`, a plain value type. -/
structure Circle where
  radius_ : Double
  center_ : Point
deriving DecidableEq, Repr

/-- The constructor `Circle(double radius) : radius_(radius)`. -/
def Circle.create (radius : Double) : Circle :=
  { radius_ := radius, center_ := Point.zero }

/-- The class `Square`, a plain value type. -/
structure Square where
  side_ : Double
  center_ : Point
deriving DecidableEq, Repr

/-- The constructor `Square(double side) : side_(side)`. -/
def Square.create (side : Double) : Square :=
  { side_ := side, center_ := Point.zero }

/-- The alias `using Shape = std::variant<Circle, Square>`. -/
abbrev Shape := std.variant Circle Square

/-- The alias `using Shapes = std::vector<Shape>`. -/
abbrev Shapes := List Shape

/-- The struct `Draw`: `operator()(Circle const&)` and
`operator()(Square const&)`, each writing its line to the stream. -/
def Draw : std.Callable Circle Square (Ostream → Ostream) where
  call0 := fun _c out => out.put "draw circle\n"
  call1 := fun _c out => out.put "draw square\n"

/-- The function `drawAllShapes(Shapes const&)`. -/
def drawAllShapes : Shapes → Ostream → Ostream
  | [], out => out
  | shape :: rest, out => drawAllShapes rest (std.visit Draw shape out)

end std_variant_visitor

/-! ## Vocabulary of the specification -/

/-- The kinds of shape of the specification. -/
inductive Kind where
  | circle
  | square
deriving DecidableEq, Repr

/-- The label the specification associates with a kind. -/
def Kind.label : Kind → String
  | .circle => "draw circle"
  | .square => "draw square"

/-- The text of a sequence of lines: each line followed by the terminator. -/
def linesText : List String → List Char
  | [] => []
  | l :: ls => l.data ++ newline :: linesText ls

/-- The reading of "line `i` is the label of shape `i`": the lines are the
kinds mapped through the label function, and in particular line `i` is
`draw circle` where kind `i` is a circle and `draw square` where it is a
square. -/
def DrawsEach (kinds : List Kind) (lines : List String) : Prop :=
  lines = kinds.map Kind.label ∧
  ∀ i : Nat,
    (kinds[i]? = some Kind.circle → lines[i]? = some "draw circle") ∧
    (kinds[i]? = some Kind.square → lines[i]? = some "draw square")

/-- The kind of a `procedural_solution` object: its dynamic type. -/
def procedural_solution.Object.kind : procedural_solution.Object → Kind
  | .ofCircle _ => Kind.circle
  | .ofSquare _ => Kind.square

/-- The tag stored in an object names its dynamic type.  Both constructors
establish this, and no member function writes `type_`. -/
def procedural_solution.Object.TagAgrees : procedural_solution.Object → Prop
  | .ofCircle c => c.toShape.getType = procedural_solution.circle
  | .ofSquare s => s.toShape.getType = procedural_solution.square

/-- The kind of an `OO_solution` object: its dynamic type. -/
def OO_solution.Shape.kind : OO_solution.Shape → Kind
  | .ofCircle _ => Kind.circle
  | .ofSquare _ => Kind.square

/-- The kind of a `visitor_pattern` object: its dynamic type. -/
def visitor_pattern.Shape.kind : visitor_pattern.Shape → Kind
  | .ofCircle _ => Kind.circle
  | .ofSquare _ => Kind.square

/-- The kind of a `std_variant_visitor::Shape`: the alternative it holds. -/
def std_variant_visitor.kind : std_variant_visitor.Shape → Kind
  | .index0 _ => Kind.circle
  | .index1 _ => Kind.square

/-! ## Collections and operations used to state the properties -/

/-- The collection `[Circle(2.3), Square(1.2), Circle(4.1)]` of
`procedural_solution`, built with `std::make_unique`. -/
def procedural_solution.shapesA : List procedural_solution.Object :=
  [procedural_solution.make_unique_Circle lit_2_3,
   procedural_solution.make_unique_Square lit_1_2,
   procedural_solution.make_unique_Circle lit_4_1]

/-- The collection `[Circle(2.3), Square(1.2), Circle(4.1)]` of
`OO_solution`. -/
def OO_solution.shapesA : List OO_solution.Shape :=
  [.ofCircle (OO_solution.Circle.create lit_2_3),
   .ofSquare (OO_solution.Square.create lit_1_2),
   .ofCircle (OO_solution.Circle.create lit_4_1)]

/-- The collection `[Circle(2.3), Square(1.2), Circle(4.1)]` of
`visitor_pattern`. -/
def visitor_pattern.shapesA : List visitor_pattern.Shape :=
  [.ofCircle (visitor_pattern.Circle.create lit_2_3),
   .ofSquare (visitor_pattern.Square.create lit_1_2),
   .ofCircle (visitor_pattern.Circle.create lit_4_1)]

/-- The collection `[Circle(2.3), Square(1.2), Circle(4.1)]` of
`std_variant_visitor`: each element is a variant holding the value. -/
def std_variant_visitor.shapesA : std_variant_visitor.Shapes :=
  [.index0 (std_variant_visitor.Circle.create lit_2_3),
   .index1 (std_variant_visitor.Square.create lit_1_2),
   .index0 (std_variant_visitor.Circle.create lit_4_1)]

/-- The `procedural_solution` object of a kind and payload, as
`std::make_unique` of that class builds it. -/
def procedural_solution.ofKind : Kind → Double → procedural_solution.Object
  | .circle, p => procedural_solution.make_unique_Circle p
  | .square, p => procedural_solution.make_unique_Square p

/-- The `OO_solution` object of a kind and payload. -/
def OO_solution.ofKind : Kind → Double → OO_solution.Shape
  | .circle, p => .ofCircle (OO_solution.Circle.create p)
  | .square, p => .ofSquare (OO_solution.Square.create p)

/-- The `visitor_pattern` object of a kind and payload. -/
def visitor_pattern.ofKind : Kind → Double → visitor_pattern.Shape
  | .circle, p => .ofCircle (visitor_pattern.Circle.create p)
  | .square, p => .ofSquare (visitor_pattern.Square.create p)

/-- The `std_variant_visitor::Shape` of a kind and payload: the variant
holding the constructed value. -/
def std_variant_visitor.ofKind : Kind → Double → std_variant_visitor.Shape
  | .circle, p => .index0 (std_variant_visitor.Circle.create p)
  | .square, p => .index1 (std_variant_visitor.Square.create p)

/-- The text of the three lines expected of that collection. -/
def textA : List Char := "draw circle\ndraw square\ndraw circle\n".data

/-- A call of one of the two `visit` overloads, with its argument. -/
inductive visitor_pattern.Call where
  | visit_Circle (c : visitor_pattern.Circle)
  | visit_Square (s : visitor_pattern.Square)
deriving DecidableEq, Repr

/-- A visitor together with a record of the calls made to it: each overload
does what the overload of `v` does and appends its call to the record. -/
def visitor_pattern.ShapeVisitor.traced {σ : Type} (v : visitor_pattern.ShapeVisitor σ) :
    visitor_pattern.ShapeVisitor (σ × List visitor_pattern.Call) where
  visit_Circle := fun c st => (v.visit_Circle c st.1, st.2 ++ [.visit_Circle c])
  visit_Square := fun s st => (v.visit_Square s st.1, st.2 ++ [.visit_Square s])

/-- A read-only visitor that reports the payload of the shape it is handed:
it appends `radius_`, respectively `side_`, to the list of reports. -/
def visitor_pattern.ReportPayload : visitor_pattern.ShapeVisitor (List Double) where
  visit_Circle := fun c reports => reports ++ [c.radius_]
  visit_Square := fun s reports => reports ++ [s.side_]

/-- A read-only operation on the variant that returns the payload of the
alternative it is handed. -/
def std_variant_visitor.ReportPayload :
    std.Callable std_variant_visitor.Circle std_variant_visitor.Square Double where
  call0 := fun c => c.radius_
  call1 := fun s => s.side_

/-! ## The drivers and `main` -/

/-- The member function `std::vector::emplace_back`: the new element goes to
the end. -/
def std.emplace_back {α : Type} (v : List α) (x : α) : List α := v ++ [x]

/-- The vector `shapes` of `first_solution` after its three `emplace_back`
calls. -/
def procedural_solution.first_solution.shapes : List procedural_solution.Object :=
  std.emplace_back
    (std.emplace_back
      (std.emplace_back [] (procedural_solution.make_unique_Circle lit_2_3))
      (procedural_solution.make_unique_Square lit_1_2))
    (procedural_solution.make_unique_Circle lit_4_1)

/-- The function `first_solution()`. -/
def procedural_solution.first_solution (out : Ostream) : Option Ostream :=
  procedural_solution.drawAllShapes procedural_solution.first_solution.shapes out

/-- The vector `shapes` of `oo_solution` after its three `emplace_back`
calls. -/
def OO_solution.oo_solution.shapes : List OO_solution.Shape :=
  std.emplace_back
    (std.emplace_back
      (std.emplace_back [] (.ofCircle (OO_solution.Circle.create lit_2_3)))
      (.ofSquare (OO_solution.Square.create lit_1_2)))
    (.ofCircle (OO_solution.Circle.create lit_4_1))

/-- The function `oo_solution()`. -/
def OO_solution.oo_solution (out : Ostream) : Ostream :=
  OO_solution.drawAllShapes OO_solution.oo_solution.shapes out

/-- The vector `shapes` of `visitor_solution` after its three `emplace_back`
calls. -/
def visitor_pattern.visitor_solution.shapes : List visitor_pattern.Shape :=
  std.emplace_back
    (std.emplace_back
      (std.emplace_back [] (.ofCircle (visitor_pattern.Circle.create lit_2_3)))
      (.ofSquare (visitor_pattern.Square.create lit_1_2)))
    (.ofCircle (visitor_pattern.Circle.create lit_4_1))

/-- The function `visitor_solution()`. -/
def visitor_pattern.visitor_solution (out : Ostream) : Ostream :=
  visitor_pattern.drawAllShapes visitor_pattern.visitor_solution.shapes out

/-- The vector `shapes` of `variant_solution` after its three `emplace_back`
calls: `Circle{2.3}`, `Square{1.2}`, `Square{4.1}`. -/
def std_variant_visitor.variant_solution.shapes : std_variant_visitor.Shapes :=
  std.emplace_back
    (std.emplace_back
      (std.emplace_back [] (.index0 (std_variant_visitor.Circle.create lit_2_3)))
      (.index1 (std_variant_visitor.Square.create lit_1_2)))
    (.index1 (std_variant_visitor.Square.create lit_4_1))

/-- The function `variant_solution()`. -/
def std_variant_visitor.variant_solution (out : Ostream) : Ostream :=
  std_variant_visitor.drawAllShapes std_variant_visitor.variant_solution.shapes out

/-- The value of `EXIT_SUCCESS`. -/
def EXIT_SUCCESS : Int := 0

/-- The function `main`: it calls `std_variant_visitor::variant_solution()`
(the calls of the other three drivers are commented out) and returns
`EXIT_SUCCESS`.  The result is the stream and the exit status. -/
def Program.main (out : Ostream) : Ostream × Int :=
  (std_variant_visitor.variant_solution out, EXIT_SUCCESS)

/-! ## The program state: the collection and the stream -/

/-- The part of the program state that `drawAllShapes` can reach: the
elements of the vector it is handed by reference, and `std::cout`. -/
structure World (α : Type) where
  shapes : List α
  cout : Ostream

/-- The stream insertion `std::cout << s` on the program state. -/
def World.put {α : Type} (w : World α) (s : String) : World α :=
  ⟨w.shapes, w.cout.put s⟩

/-- The range-based `for` over the vector of the state, from element `i` on,
with `n` elements still to visit: `body` runs with the position of the element
the loop variable refers to. -/
def World.forEachFrom {α : Type} (body : Nat → World α → Option (World α)) :
    Nat → Nat → World α → Option (World α)
  | 0, _, w => some w
  | n + 1, i, w => (body i w).bind (World.forEachFrom body n (i + 1))

/-- The range-based `for` over the whole vector of the state. -/
def World.forEach {α : Type} (body : Nat → World α → Option (World α)) (w : World α) :
    Option (World α) :=
  World.forEachFrom body w.shapes.length 0 w

/-- The free function `draw(Circle const&)` on the program state. -/
def procedural_solution.exec_draw_Circle (_c : procedural_solution.Circle)
    (w : World procedural_solution.Object) : World procedural_solution.Object :=
  w.put "draw circle\n"

/-- The free function `draw(Square const&)` on the program state. -/
def procedural_solution.exec_draw_Square (_c : procedural_solution.Square)
    (w : World procedural_solution.Object) : World procedural_solution.Object :=
  w.put "draw square\n"

/-- The loop body of `procedural_solution::drawAllShapes` on the program
state, `shape` referring to element `i`. -/
def procedural_solution.exec_body (i : Nat) (w : World procedural_solution.Object) :
    Option (World procedural_solution.Object) :=
  (w.shapes[i]?).bind fun shape =>
    if shape.deref.getType = procedural_solution.circle then
      (procedural_solution.static_cast_Circle shape).map
        (fun c => procedural_solution.exec_draw_Circle c w)
    else if shape.deref.getType = procedural_solution.square then
      (procedural_solution.static_cast_Square shape).map
        (fun s => procedural_solution.exec_draw_Square s w)
    else
      some w

/-- The function `procedural_solution::drawAllShapes` on the program state. -/
def procedural_solution.exec_drawAllShapes (w : World procedural_solution.Object) :
    Option (World procedural_solution.Object) :=
  w.forEach procedural_solution.exec_body

/-- The overrider `Circle::draw() const` on the program state. -/
def OO_solution.Circle.exec_draw (_self : OO_solution.Circle)
    (w : World OO_solution.Shape) : World OO_solution.Shape :=
  w.put "draw circle\n"

/-- The overrider `Square::draw() const` on the program state. -/
def OO_solution.Square.exec_draw (_self : OO_solution.Square)
    (w : World OO_solution.Shape) : World OO_solution.Shape :=
  w.put "draw square\n"

/-- The virtual call `shape->draw()` on the program state. -/
def OO_solution.Shape.exec_draw :
    OO_solution.Shape → World OO_solution.Shape → World OO_solution.Shape
  | .ofCircle c, w => c.exec_draw w
  | .ofSquare s, w => s.exec_draw w

/-- The function `OO_solution::drawAllShapes` on the program state. -/
def OO_solution.exec_drawAllShapes (w : World OO_solution.Shape) :
    Option (World OO_solution.Shape) :=
  w.forEach fun i w => (w.shapes[i]?).map fun shape => shape.exec_draw w

/-- The class `Draw : public ShapeVisitor` on the program state. -/
def visitor_pattern.exec_Draw : visitor_pattern.ShapeVisitor (World visitor_pattern.Shape) where
  visit_Circle := fun _c w => w.put "draw circle\n"
  visit_Square := fun _s w => w.put "draw square\n"

/-- The function `visitor_pattern::drawAllShapes` on the program state. -/
def visitor_pattern.exec_drawAllShapes (w : World visitor_pattern.Shape) :
    Option (World visitor_pattern.Shape) :=
  w.forEach fun i w => (w.shapes[i]?).map fun shape =>
    shape.accept visitor_pattern.exec_Draw w

/-- The struct `Draw` of `std_variant_visitor` on the program state. -/
def std_variant_visitor.exec_Draw :
    std.Callable std_variant_visitor.Circle std_variant_visitor.Square
      (World std_variant_visitor.Shape → World std_variant_visitor.Shape) where
  call0 := fun _c w => w.put "draw circle\n"
  call1 := fun _c w => w.put "draw square\n"

/-- The function `std_variant_visitor::drawAllShapes` on the program state. -/
def std_variant_visitor.exec_drawAllShapes (w : World std_variant_visitor.Shape) :
    Option (World std_variant_visitor.Shape) :=
  w.forEach fun i w => (w.shapes[i]?).map fun shape =>
    std.visit std_variant_visitor.exec_Draw shape w

/-! ## The implicitly declared copy operations of `procedural_solution::Shape` -/

/-- The copy constructor `Shape(Shape const&)`.  The class declares none, so
it is implicitly declared, public and memberwise: the new object, of class
`Shape`, takes the `type_` of its argument. -/
def procedural_solution.Shape.copy_construct (other : procedural_solution.Shape) :
    procedural_solution.Shape :=
  { type_ := other.type_ }

/-- The copy assignment `Shape::operator=(Shape const&)`.  The class declares
none, so it is implicitly declared, public and memberwise: `type_` of the
object assigned to becomes `type_` of the argument. -/
def procedural_solution.Shape.copy_assign (_self other : procedural_solution.Shape) :
    procedural_solution.Shape :=
  { type_ := other.type_ }

/-- The statement `*a = *b` for two handles on `Shape`: the operator is not
virtual, so `Shape::operator=` runs on the base class subobject of the object
`a` owns; the dynamic type of that object and its other members stay. -/
def procedural_solution.Object.assign (a b : procedural_solution.Object) :
    procedural_solution.Object :=
  match a with
  | .ofCircle c =>
    .ofCircle { toShape := c.toShape.copy_assign b.deref, radius_ := c.radius_,
                center_ := c.center_ }
  | .ofSquare s =>
    .ofSquare { toShape := s.toShape.copy_assign b.deref, side_ := s.side_,
                center_ := s.center_ }

/-! ## Lines of a stream -/

theorem linesAux_terminated (l : List Char) (h : newline ∉ l) (cur rest : List Char) :
    linesAux cur (l ++ newline :: rest) = String.mk (cur ++ l) :: linesAux [] rest := by
  induction l generalizing cur with
  | nil => simp [linesAux]
  | cons c cs ih =>
    have hc : c ≠ newline := fun e => h (by simp [e])
    have hcs : newline ∉ cs := fun e => h (by simp [e])
    simp [linesAux, hc, ih hcs]

theorem lines_linesText (ls : List String) (h : ∀ l ∈ ls, newline ∉ l.data) :
    Ostream.lines (linesText ls) = ls := by
  induction ls with
  | nil => simp [Ostream.lines, linesText, linesAux]
  | cons l ls ih =>
    have hl : newline ∉ l.data := h l (by simp)
    have hls : ∀ m ∈ ls, newline ∉ m.data := fun m hm => h m (by simp [hm])
    have := ih hls
    simp only [Ostream.lines] at this ⊢
    rw [linesText, linesAux_terminated l.data hl, this]
    simp

theorem linesText_append (xs ys : List String) :
    linesText (xs ++ ys) = linesText xs ++ linesText ys := by
  induction xs with
  | nil => simp [linesText]
  | cons l ls ih => simp [linesText, ih]

theorem label_no_newline (k : Kind) : newline ∉ k.label.data := by
  cases k <;> decide

theorem labels_no_newline (ks : List Kind) : ∀ l ∈ ks.map Kind.label, newline ∉ l.data := by
  intro l hl
  obtain ⟨k, _, rfl⟩ := List.mem_map.mp hl
  exact label_no_newline k

theorem lines_labels (ks : List Kind) :
    Ostream.lines (linesText (ks.map Kind.label)) = ks.map Kind.label :=
  lines_linesText _ (labels_no_newline ks)

theorem drawsEach_labels (ks : List Kind) : DrawsEach ks (ks.map Kind.label) := by
  refine ⟨rfl, fun i => ⟨fun h => ?_, fun h => ?_⟩⟩ <;>
    simp [List.getElem?_map, h, Kind.label]

/-- The line written for a kind: its label, then the terminator. -/
theorem put_circle (out : Ostream) :
    out.put "draw circle\n" = out ++ (Kind.circle.label.data ++ [newline]) := by
  simp [Ostream.put, Kind.label, newline]

theorem put_square (out : Ostream) :
    out.put "draw square\n" = out ++ (Kind.square.label.data ++ [newline]) := by
  simp [Ostream.put, Kind.label, newline]

theorem append_line (out : Ostream) (l : String) (ls : List String) :
    out ++ (l.data ++ [newline]) ++ linesText ls = out ++ linesText (l :: ls) := by
  simp [linesText]

/-! ## The output of each `drawAllShapes` in closed form -/

theorem procedural_solution.body_eq (shape : procedural_solution.Object)
    (h : shape.TagAgrees) (out : Ostream) :
    procedural_solution.drawAllShapes.body shape out =
      some (out ++ (shape.kind.label.data ++ [newline])) := by
  cases shape with
  | ofCircle c =>
    have hc : c.toShape.getType = procedural_solution.circle := h
    simp [procedural_solution.drawAllShapes.body, procedural_solution.Object.deref, hc,
      procedural_solution.static_cast_Circle, procedural_solution.draw_Circle, put_circle,
      procedural_solution.Object.kind]
  | ofSquare s =>
    have hs : s.toShape.getType = procedural_solution.square := h
    simp [procedural_solution.drawAllShapes.body, procedural_solution.Object.deref, hs,
      procedural_solution.static_cast_Square, procedural_solution.draw_Square, put_square,
      procedural_solution.Object.kind, procedural_solution.circle, procedural_solution.square]

theorem procedural_drawAllShapes_eq (shapes : List procedural_solution.Object)
    (h : ∀ s ∈ shapes, s.TagAgrees) (out : Ostream) :
    procedural_solution.drawAllShapes shapes out =
      some (out ++ linesText ((shapes.map procedural_solution.Object.kind).map Kind.label)) := by
  induction shapes generalizing out with
  | nil => simp [procedural_solution.drawAllShapes, linesText]
  | cons s rest ih =>
    have hs : s.TagAgrees := h s (by simp)
    have hrest : ∀ t ∈ rest, t.TagAgrees := fun t ht => h t (by simp [ht])
    rw [procedural_solution.drawAllShapes, procedural_solution.body_eq s hs, Option.some_bind,
      ih hrest, append_line]
    rfl

theorem oo_drawAllShapes_eq (shapes : List OO_solution.Shape) (out : Ostream) :
    OO_solution.drawAllShapes shapes out =
      out ++ linesText ((shapes.map OO_solution.Shape.kind).map Kind.label) := by
  induction shapes generalizing out with
  | nil => simp [OO_solution.drawAllShapes, linesText]
  | cons s rest ih =>
    rw [OO_solution.drawAllShapes, ih]
    cases s <;>
      simp only [OO_solution.Shape.draw, OO_solution.Circle.draw, OO_solution.Square.draw,
        put_circle, put_square, append_line] <;> rfl

theorem visitor_drawAllShapes_eq (shapes : List visitor_pattern.Shape) (out : Ostream) :
    visitor_pattern.drawAllShapes shapes out =
      out ++ linesText ((shapes.map visitor_pattern.Shape.kind).map Kind.label) := by
  induction shapes generalizing out with
  | nil => simp [visitor_pattern.drawAllShapes, linesText]
  | cons s rest ih =>
    rw [visitor_pattern.drawAllShapes, ih]
    cases s <;>
      simp only [visitor_pattern.Shape.accept, visitor_pattern.Circle.accept,
        visitor_pattern.Square.accept, visitor_pattern.Draw, put_circle, put_square,
        append_line] <;> rfl

theorem variant_drawAllShapes_eq (shapes : std_variant_visitor.Shapes)
    (out : Ostream) :
    std_variant_visitor.drawAllShapes shapes out =
      out ++ linesText ((shapes.map std_variant_visitor.kind).map Kind.label) := by
  induction shapes generalizing out with
  | nil => simp [std_variant_visitor.drawAllShapes, linesText]
  | cons s rest ih =>
    rw [std_variant_visitor.drawAllShapes, ih]
    cases s <;>
      simp only [std.visit, std_variant_visitor.Draw, put_circle, put_square, append_line] <;>
      rfl

theorem lines_append_labels (xs ys : List Kind) :
    Ostream.lines (linesText (xs.map Kind.label) ++ linesText (ys.map Kind.label)) =
      Ostream.lines (linesText (xs.map Kind.label)) ++
        Ostream.lines (linesText (ys.map Kind.label)) := by
  rw [← linesText_append, ← List.map_append, lines_labels, lines_labels, lines_labels,
    List.map_append]

theorem lines_textA : Ostream.lines textA = ["draw circle", "draw square", "draw circle"] :=
  lines_labels [Kind.circle, Kind.square, Kind.circle]

theorem procedural_solution.shapesA_tagAgrees :
    ∀ s ∈ procedural_solution.shapesA, s.TagAgrees := by
  intro s hs
  simp only [procedural_solution.shapesA, List.mem_cons, List.mem_singleton, List.mem_nil_iff,
    or_false] at hs
  rcases hs with rfl | rfl | rfl <;> rfl

/-! ## Scenarios -/

/-- C1 (Scenario A). In each of the four strategies, `drawAllShapes` on the
collection `[Circle(2.3), Square(1.2), Circle(4.1)]` appends exactly the text
`draw circle\ndraw square\ndraw circle\n` to the stream, and run on an empty
stream it leaves exactly the three lines `draw circle`, `draw square`,
`draw circle`, in that order. -/
theorem scenarioA_draws (out : Ostream) :
    (procedural_solution.drawAllShapes procedural_solution.shapesA out = some (out ++ textA) ∧
      OO_solution.drawAllShapes OO_solution.shapesA out = out ++ textA ∧
      visitor_pattern.drawAllShapes visitor_pattern.shapesA out = out ++ textA ∧
      std_variant_visitor.drawAllShapes std_variant_visitor.shapesA out = out ++ textA) ∧
    ((procedural_solution.drawAllShapes procedural_solution.shapesA []).map Ostream.lines =
        some ["draw circle", "draw square", "draw circle"] ∧
      (OO_solution.drawAllShapes OO_solution.shapesA []).lines =
        ["draw circle", "draw square", "draw circle"] ∧
      (visitor_pattern.drawAllShapes visitor_pattern.shapesA []).lines =
        ["draw circle", "draw square", "draw circle"] ∧
      (std_variant_visitor.drawAllShapes std_variant_visitor.shapesA []).lines =
        ["draw circle", "draw square", "draw circle"]) := by
  have hp := procedural_drawAllShapes_eq procedural_solution.shapesA
    procedural_solution.shapesA_tagAgrees
  have ho := oo_drawAllShapes_eq OO_solution.shapesA
  have hv := visitor_drawAllShapes_eq visitor_pattern.shapesA
  have hw := variant_drawAllShapes_eq std_variant_visitor.shapesA
  have ht : linesText ([Kind.circle, Kind.square, Kind.circle].map Kind.label) = textA := by
    decide
  refine ⟨⟨?_, ?_, ?_, ?_⟩, ?_, ?_, ?_, ?_⟩
  · rw [hp out]; exact congrArg (fun t => some (out ++ t)) ht
  · rw [ho out]; exact congrArg (fun t => out ++ t) ht
  · rw [hv out]; exact congrArg (fun t => out ++ t) ht
  · rw [hw out]; exact congrArg (fun t => out ++ t) ht
  · rw [hp []]; exact congrArg some (lines_labels [Kind.circle, Kind.square, Kind.circle])
  · rw [ho []]; exact lines_labels [Kind.circle, Kind.square, Kind.circle]
  · rw [hv []]; exact lines_labels [Kind.circle, Kind.square, Kind.circle]
  · rw [hw []]; exact lines_labels [Kind.circle, Kind.square, Kind.circle]

/-- C2. For every collection, in each of the four strategies the lines emitted
by `drawAllShapes` are the kinds of the shapes mapped through the label
function: line `i` is `draw circle` where shape `i` is a Circle and
`draw square` where it is a Square, whatever the position `i`.  (The objects
of `procedural_solution` are those whose tag names their dynamic type, as
every constructed object does.) -/
theorem draw_emits_label_of_each_shape
    (ps : List procedural_solution.Object) (hps : ∀ s ∈ ps, s.TagAgrees)
    (os : List OO_solution.Shape) (vs : List visitor_pattern.Shape)
    (ws : std_variant_visitor.Shapes) :
    (∃ out, procedural_solution.drawAllShapes ps [] = some out ∧
      DrawsEach (ps.map procedural_solution.Object.kind) out.lines) ∧
    DrawsEach (os.map OO_solution.Shape.kind) (OO_solution.drawAllShapes os []).lines ∧
    DrawsEach (vs.map visitor_pattern.Shape.kind) (visitor_pattern.drawAllShapes vs []).lines ∧
    DrawsEach (ws.map std_variant_visitor.kind)
      (std_variant_visitor.drawAllShapes ws []).lines := by
  refine ⟨⟨_, procedural_drawAllShapes_eq ps hps [], ?_⟩, ?_, ?_, ?_⟩
  · rw [List.nil_append, lines_labels]; exact drawsEach_labels _
  · rw [oo_drawAllShapes_eq, List.nil_append, lines_labels]; exact drawsEach_labels _
  · rw [visitor_drawAllShapes_eq, List.nil_append, lines_labels]
    exact drawsEach_labels _
  · rw [variant_drawAllShapes_eq, List.nil_append, lines_labels]
    exact drawsEach_labels _

/-- Witness of C2 on the collection `[Circle(2.3), Square(1.2), Circle(4.1)]`. -/
theorem draw_emits_label_of_each_shape_witness :
    (∀ s ∈ procedural_solution.shapesA, s.TagAgrees) ∧
    (∃ out, procedural_solution.drawAllShapes procedural_solution.shapesA [] = some out ∧
      DrawsEach (procedural_solution.shapesA.map procedural_solution.Object.kind) out.lines) :=
  ⟨procedural_solution.shapesA_tagAgrees,
    (draw_emits_label_of_each_shape procedural_solution.shapesA
      procedural_solution.shapesA_tagAgrees OO_solution.shapesA visitor_pattern.shapesA
      std_variant_visitor.shapesA).1⟩

theorem procedural_drawAllShapes_append (xs ys : List procedural_solution.Object)
    (out : Ostream) :
    procedural_solution.drawAllShapes (xs ++ ys) out =
      (procedural_solution.drawAllShapes xs out).bind (procedural_solution.drawAllShapes ys) := by
  induction xs generalizing out with
  | nil => simp [procedural_solution.drawAllShapes]
  | cons s rest ih =>
    simp only [List.cons_append, procedural_solution.drawAllShapes]
    cases procedural_solution.drawAllShapes.body s out with
    | none => rfl
    | some o => simpa using ih o

theorem oo_drawAllShapes_append (xs ys : List OO_solution.Shape) (out : Ostream) :
    OO_solution.drawAllShapes (xs ++ ys) out =
      OO_solution.drawAllShapes ys (OO_solution.drawAllShapes xs out) := by
  induction xs generalizing out with
  | nil => rfl
  | cons s rest ih => exact ih _

theorem visitor_drawAllShapes_append (xs ys : List visitor_pattern.Shape)
    (out : Ostream) :
    visitor_pattern.drawAllShapes (xs ++ ys) out =
      visitor_pattern.drawAllShapes ys (visitor_pattern.drawAllShapes xs out) := by
  induction xs generalizing out with
  | nil => rfl
  | cons s rest ih => exact ih _

theorem variant_drawAllShapes_append (xs ys : std_variant_visitor.Shapes)
    (out : Ostream) :
    std_variant_visitor.drawAllShapes (xs ++ ys) out =
      std_variant_visitor.drawAllShapes ys (std_variant_visitor.drawAllShapes xs out) := by
  induction xs generalizing out with
  | nil => rfl
  | cons s rest ih => exact ih _

theorem mem_append_forall {α : Type} {p : α → Prop} {xs ys : List α}
    (hx : ∀ s ∈ xs, p s) (hy : ∀ s ∈ ys, p s) : ∀ s ∈ xs ++ ys, p s := by
  intro s hs
  rcases List.mem_append.mp hs with h | h
  · exact hx s h
  · exact hy s h

theorem lines_draw_append {α : Type} (kind : α → Kind) (xs ys : List α) :
    Ostream.lines ([] ++ linesText (((xs ++ ys).map kind).map Kind.label)) =
      Ostream.lines ([] ++ linesText ((xs.map kind).map Kind.label)) ++
        Ostream.lines ([] ++ linesText ((ys.map kind).map Kind.label)) := by
  simp only [List.nil_append, List.map_append, linesText_append]
  exact lines_append_labels _ _

/-- C3 (order preservation). For every two collections `xs` and `ys`, in each
of the four strategies running `drawAllShapes` on `xs ++ ys` is running it on
`xs` and then on `ys` from the stream so reached; the text emitted for
`xs ++ ys` is the text emitted for `xs` followed by the text emitted for `ys`,
and so are the lines. -/
theorem draw_preserves_order
    (xp yp : List procedural_solution.Object)
    (hx : ∀ s ∈ xp, s.TagAgrees) (hy : ∀ s ∈ yp, s.TagAgrees)
    (xo yo : List OO_solution.Shape) (xv yv : List visitor_pattern.Shape)
    (xw yw : std_variant_visitor.Shapes) (out : Ostream) :
    (procedural_solution.drawAllShapes (xp ++ yp) out =
        (procedural_solution.drawAllShapes xp out).bind (procedural_solution.drawAllShapes yp) ∧
      ∃ a b, procedural_solution.drawAllShapes xp [] = some a ∧
        procedural_solution.drawAllShapes yp [] = some b ∧
        procedural_solution.drawAllShapes (xp ++ yp) [] = some (a ++ b) ∧
        (a ++ b).lines = a.lines ++ b.lines) ∧
    (OO_solution.drawAllShapes (xo ++ yo) out =
        OO_solution.drawAllShapes yo (OO_solution.drawAllShapes xo out) ∧
      OO_solution.drawAllShapes (xo ++ yo) [] =
        OO_solution.drawAllShapes xo [] ++ OO_solution.drawAllShapes yo [] ∧
      (OO_solution.drawAllShapes (xo ++ yo) []).lines =
        (OO_solution.drawAllShapes xo []).lines ++ (OO_solution.drawAllShapes yo []).lines) ∧
    (visitor_pattern.drawAllShapes (xv ++ yv) out =
        visitor_pattern.drawAllShapes yv (visitor_pattern.drawAllShapes xv out) ∧
      visitor_pattern.drawAllShapes (xv ++ yv) [] =
        visitor_pattern.drawAllShapes xv [] ++ visitor_pattern.drawAllShapes yv [] ∧
      (visitor_pattern.drawAllShapes (xv ++ yv) []).lines =
        (visitor_pattern.drawAllShapes xv []).lines ++
          (visitor_pattern.drawAllShapes yv []).lines) ∧
    (std_variant_visitor.drawAllShapes (xw ++ yw) out =
        std_variant_visitor.drawAllShapes yw (std_variant_visitor.drawAllShapes xw out) ∧
      std_variant_visitor.drawAllShapes (xw ++ yw) [] =
        std_variant_visitor.drawAllShapes xw [] ++ std_variant_visitor.drawAllShapes yw [] ∧
      (std_variant_visitor.drawAllShapes (xw ++ yw) []).lines =
        (std_variant_visitor.drawAllShapes xw []).lines ++
          (std_variant_visitor.drawAllShapes yw []).lines) := by
  refine ⟨⟨procedural_drawAllShapes_append xp yp out, _, _,
    procedural_drawAllShapes_eq xp hx [],
    procedural_drawAllShapes_eq yp hy [], ?_, ?_⟩,
    ⟨oo_drawAllShapes_append xo yo out, ?_, ?_⟩,
    ⟨visitor_drawAllShapes_append xv yv out, ?_, ?_⟩,
    ⟨variant_drawAllShapes_append xw yw out, ?_, ?_⟩⟩
  · rw [procedural_drawAllShapes_eq _ (mem_append_forall hx hy)]
    simp [linesText_append]
  · simp only [List.nil_append]; exact lines_append_labels _ _
  · simp [oo_drawAllShapes_eq, linesText_append]
  · simp only [oo_drawAllShapes_eq]; exact lines_draw_append _ _ _
  · simp [visitor_drawAllShapes_eq, linesText_append]
  · simp only [visitor_drawAllShapes_eq]; exact lines_draw_append _ _ _
  · simp [variant_drawAllShapes_eq, linesText_append]
  · simp only [variant_drawAllShapes_eq]; exact lines_draw_append _ _ _

/-- Witness of C3 with `[Circle(2.3), Square(1.2), Circle(4.1)]` for both
collections. -/
theorem draw_preserves_order_witness :
    (∀ s ∈ procedural_solution.shapesA, s.TagAgrees) ∧
    ∃ a b, procedural_solution.drawAllShapes procedural_solution.shapesA [] = some a ∧
      procedural_solution.drawAllShapes procedural_solution.shapesA [] = some b ∧
      procedural_solution.drawAllShapes
        (procedural_solution.shapesA ++ procedural_solution.shapesA) [] = some (a ++ b) ∧
      (a ++ b).lines = a.lines ++ b.lines :=
  ⟨procedural_solution.shapesA_tagAgrees,
    (draw_preserves_order procedural_solution.shapesA procedural_solution.shapesA
      procedural_solution.shapesA_tagAgrees procedural_solution.shapesA_tagAgrees
      OO_solution.shapesA OO_solution.shapesA visitor_pattern.shapesA visitor_pattern.shapesA
      std_variant_visitor.shapesA std_variant_visitor.shapesA []).1.2⟩

/-- C4 (Scenario B). In each of the four strategies `drawAllShapes` on the
empty collection returns (for `procedural_solution`, it is defined) with the
stream as it was: nothing is emitted, and from an empty stream there are no
lines. -/
theorem draw_empty_collection (out : Ostream) :
    (procedural_solution.drawAllShapes [] out = some out ∧
      OO_solution.drawAllShapes [] out = out ∧
      visitor_pattern.drawAllShapes [] out = out ∧
      std_variant_visitor.drawAllShapes [] out = out) ∧
    ((procedural_solution.drawAllShapes [] []).map Ostream.lines = some [] ∧
      (OO_solution.drawAllShapes [] []).lines = [] ∧
      (visitor_pattern.drawAllShapes [] []).lines = [] ∧
      (std_variant_visitor.drawAllShapes [] []).lines = []) :=
  ⟨⟨rfl, rfl, rfl, rfl⟩, rfl, rfl, rfl, rfl⟩

/-! ## Equivalence of the strategies -/

theorem procedural_solution.ofKind_tagAgrees (ks : List (Kind × Double)) :
    ∀ s ∈ ks.map (fun k => procedural_solution.ofKind k.1 k.2), s.TagAgrees := by
  intro s hs
  obtain ⟨⟨k, p⟩, _, rfl⟩ := List.mem_map.mp hs
  cases k <;> rfl

theorem procedural_kind_ofKind (ks : List (Kind × Double)) :
    (ks.map (fun k => procedural_solution.ofKind k.1 k.2)).map procedural_solution.Object.kind =
      ks.map Prod.fst := by
  rw [List.map_map]
  exact List.map_congr_left (fun k _ => by obtain ⟨k, p⟩ := k; cases k <;> rfl)

theorem visitor_kind_ofKind (ks : List (Kind × Double)) :
    (ks.map (fun k => visitor_pattern.ofKind k.1 k.2)).map visitor_pattern.Shape.kind =
      ks.map Prod.fst := by
  rw [List.map_map]
  exact List.map_congr_left (fun k _ => by obtain ⟨k, p⟩ := k; cases k <;> rfl)

theorem variant_kind_ofKind (ks : List (Kind × Double)) :
    (ks.map (fun k => std_variant_visitor.ofKind k.1 k.2)).map std_variant_visitor.kind =
      ks.map Prod.fst := by
  rw [List.map_map]
  exact List.map_congr_left (fun k _ => by obtain ⟨k, p⟩ := k; cases k <;> rfl)

/-- C5. For every tagged-object collection of `procedural_solution` (tags
naming the dynamic types) and every variant collection with the same kinds in
the same order, `procedural_solution::drawAllShapes` is defined and leaves the
stream exactly as `std_variant_visitor::drawAllShapes` does; in particular so
for the two collections built from any one sequence of kinds, whatever the
payloads. -/
theorem variant_dispatch_eq_tag_switch
    (ps : List procedural_solution.Object) (hps : ∀ s ∈ ps, s.TagAgrees)
    (ws : std_variant_visitor.Shapes)
    (hk : ps.map procedural_solution.Object.kind = ws.map std_variant_visitor.kind)
    (out : Ostream) :
    procedural_solution.drawAllShapes ps out =
      some (std_variant_visitor.drawAllShapes ws out) ∧
    ∀ ks qs : List (Kind × Double), ks.map Prod.fst = qs.map Prod.fst →
      procedural_solution.drawAllShapes
          (ks.map (fun k => procedural_solution.ofKind k.1 k.2)) out =
        some (std_variant_visitor.drawAllShapes
          (qs.map (fun k => std_variant_visitor.ofKind k.1 k.2)) out) := by
  constructor
  · rw [procedural_drawAllShapes_eq ps hps, variant_drawAllShapes_eq, hk]
  · intro ks qs h
    rw [procedural_drawAllShapes_eq _ (procedural_solution.ofKind_tagAgrees ks),
      variant_drawAllShapes_eq, procedural_kind_ofKind,
      variant_kind_ofKind, h]

/-- Witness of C5 on the two collections `[Circle(2.3), Square(1.2), Circle(4.1)]`. -/
theorem variant_dispatch_eq_tag_switch_witness :
    (∀ s ∈ procedural_solution.shapesA, s.TagAgrees) ∧
    procedural_solution.shapesA.map procedural_solution.Object.kind =
      std_variant_visitor.shapesA.map std_variant_visitor.kind ∧
    procedural_solution.drawAllShapes procedural_solution.shapesA [] =
      some (std_variant_visitor.drawAllShapes std_variant_visitor.shapesA []) :=
  ⟨procedural_solution.shapesA_tagAgrees, by decide,
    (variant_dispatch_eq_tag_switch procedural_solution.shapesA
      procedural_solution.shapesA_tagAgrees std_variant_visitor.shapesA (by decide) []).1⟩

/-- C6. One `std::visit` on a variant has the effect of `accept` followed by
`visit` on an object of the same kind, and so for every collection of
`visitor_pattern` and every variant collection with the same kinds in the same
order, `std_variant_visitor::drawAllShapes` leaves the stream exactly as
`visitor_pattern::drawAllShapes` does; in particular so for the two
collections built from any one sequence of kinds, whatever the payloads. -/
theorem variant_dispatch_eq_double_dispatch
    (vs : List visitor_pattern.Shape) (ws : std_variant_visitor.Shapes)
    (hk : ws.map std_variant_visitor.kind = vs.map visitor_pattern.Shape.kind)
    (out : Ostream) :
    std_variant_visitor.drawAllShapes ws out = visitor_pattern.drawAllShapes vs out ∧
    (∀ (w : std_variant_visitor.Shape) (v : visitor_pattern.Shape),
      std_variant_visitor.kind w = v.kind →
        std.visit std_variant_visitor.Draw w out = v.accept visitor_pattern.Draw out) ∧
    ∀ ks qs : List (Kind × Double), ks.map Prod.fst = qs.map Prod.fst →
      std_variant_visitor.drawAllShapes
          (ks.map (fun k => std_variant_visitor.ofKind k.1 k.2)) out =
        visitor_pattern.drawAllShapes
          (qs.map (fun k => visitor_pattern.ofKind k.1 k.2)) out := by
  refine ⟨?_, ?_, ?_⟩
  · rw [variant_drawAllShapes_eq, visitor_drawAllShapes_eq, hk]
  · intro w v h
    cases w <;> cases v <;> first | rfl | cases h
  · intro ks qs h
    rw [variant_drawAllShapes_eq, visitor_drawAllShapes_eq, visitor_kind_ofKind,
      variant_kind_ofKind, h]

/-- Witness of C6 on the two collections `[Circle(2.3), Square(1.2), Circle(4.1)]`. -/
theorem variant_dispatch_eq_double_dispatch_witness :
    std_variant_visitor.shapesA.map std_variant_visitor.kind =
      visitor_pattern.shapesA.map visitor_pattern.Shape.kind ∧
    std_variant_visitor.drawAllShapes std_variant_visitor.shapesA [] =
      visitor_pattern.drawAllShapes visitor_pattern.shapesA [] :=
  ⟨by decide,
    (variant_dispatch_eq_double_dispatch visitor_pattern.shapesA std_variant_visitor.shapesA
      (by decide) []).1⟩

/-! ## The dispatch primitives -/

/-- C7 (double dispatch). For every visitor `v` and every state, `accept` on a
Circle `c` does exactly what the Circle overload of `v` does on `c`, and
`accept` on a Square `q` exactly what the Square overload does on `q`; with
the calls recorded, `accept` makes one call, of the overload for the kind of
the shape and with the shape itself as argument, and no other call. -/
theorem accept_calls_visit_of_kind {σ : Type} (v : visitor_pattern.ShapeVisitor σ) (st : σ)
    (calls : List visitor_pattern.Call)
    (c : visitor_pattern.Circle) (q : visitor_pattern.Square) :
    (visitor_pattern.Shape.ofCircle c).accept v st = v.visit_Circle c st ∧
    (visitor_pattern.Shape.ofSquare q).accept v st = v.visit_Square q st ∧
    (visitor_pattern.Shape.ofCircle c).accept v.traced (st, calls) =
      (v.visit_Circle c st, calls ++ [visitor_pattern.Call.visit_Circle c]) ∧
    (visitor_pattern.Shape.ofSquare q).accept v.traced (st, calls) =
      (v.visit_Square q st, calls ++ [visitor_pattern.Call.visit_Square q]) :=
  ⟨rfl, rfl, rfl, rfl⟩

/-- C8 (operation-openness). For every operation given by a Circle handler
`f` and a Square handler `g`, with any result type, `std::visit` on a `Shape`
yields `f` of the stored Circle when the variant holds a Circle and `g` of the
stored Square when it holds a Square, and every `Shape` is one of the two; the
operation is a value of its own and `Shape`, `Circle`, `Square` are as
defined.  With `Draw` this is the step `drawAllShapes` takes for each
element. -/
theorem visit_applies_handler_of_kind {ρ : Type}
    (f : std_variant_visitor.Circle → ρ) (g : std_variant_visitor.Square → ρ)
    (s : std_variant_visitor.Shape) (rest : std_variant_visitor.Shapes) (out : Ostream) :
    ((∃ c, s = .index0 c ∧ std.visit { call0 := f, call1 := g } s = f c) ∨
      (∃ q, s = .index1 q ∧ std.visit { call0 := f, call1 := g } s = g q)) ∧
    (∀ c, std.visit { call0 := f, call1 := g } (.index0 c : std_variant_visitor.Shape) = f c) ∧
    (∀ q, std.visit { call0 := f, call1 := g } (.index1 q : std_variant_visitor.Shape) = g q) ∧
    std_variant_visitor.drawAllShapes (s :: rest) out =
      std_variant_visitor.drawAllShapes rest (std.visit std_variant_visitor.Draw s out) ∧
    (∀ c, std.visit std_variant_visitor.Draw (.index0 c) out = out.put "draw circle\n") ∧
    (∀ q, std.visit std_variant_visitor.Draw (.index1 q) out = out.put "draw square\n") := by
  refine ⟨?_, fun _ => rfl, fun _ => rfl, rfl, fun _ => rfl, fun _ => rfl⟩
  cases s with
  | index0 c => exact Or.inl ⟨c, rfl, rfl⟩
  | index1 q => exact Or.inr ⟨q, rfl, rfl⟩

/-- C9 (payload round trip). For every payload `P`, a Circle constructed with
radius `P` and a Square constructed with side `P` store `P`, and a read-only
operation that reports the payload of the shape it is handed reports exactly
`P`, through `accept`/`visit` of `visitor_pattern` and through `std::visit` of
`std_variant_visitor`. -/
theorem payload_round_trip (P : Double) (reports : List Double) :
    ((visitor_pattern.Circle.create P).radius_ = P ∧
      (visitor_pattern.Square.create P).side_ = P ∧
      (visitor_pattern.Shape.ofCircle (visitor_pattern.Circle.create P)).accept
        visitor_pattern.ReportPayload reports = reports ++ [P] ∧
      (visitor_pattern.Shape.ofSquare (visitor_pattern.Square.create P)).accept
        visitor_pattern.ReportPayload reports = reports ++ [P]) ∧
    ((std_variant_visitor.Circle.create P).radius_ = P ∧
      (std_variant_visitor.Square.create P).side_ = P ∧
      std.visit std_variant_visitor.ReportPayload
        (.index0 (std_variant_visitor.Circle.create P)) = P ∧
      std.visit std_variant_visitor.ReportPayload
        (.index1 (std_variant_visitor.Square.create P)) = P) :=
  ⟨⟨rfl, rfl, rfl, rfl⟩, rfl, rfl, rfl, rfl⟩

/-! ## Exhaustiveness -/

/-- The `switch` has no `default` label: an object whose tag is neither
enumerator matches no case, and the loop body leaves the stream as it was. -/
theorem procedural_solution.body_unmatched_tag (shape : procedural_solution.Object)
    (out : Ostream) (h1 : shape.deref.getType ≠ procedural_solution.circle)
    (h2 : shape.deref.getType ≠ procedural_solution.square) :
    procedural_solution.drawAllShapes.body shape out = some out := by
  simp [procedural_solution.drawAllShapes.body, h1, h2]

theorem procedural_solution.tag_known_of_tagAgrees (shape : procedural_solution.Object)
    (h : shape.TagAgrees) :
    shape.deref.getType = procedural_solution.circle ∨
      shape.deref.getType = procedural_solution.square := by
  cases shape with
  | ofCircle c => exact Or.inl h
  | ofSquare s => exact Or.inr h

theorem length_lines_labels {α : Type} (kind : α → Kind) (xs : List α) :
    (Ostream.lines ([] ++ linesText ((xs.map kind).map Kind.label))).length = xs.length := by
  rw [List.nil_append, lines_labels]; simp

/-- C10 (exhaustiveness). For every collection of `procedural_solution` whose
objects carry the tag of their dynamic type, every tag is `circle` or
`square`, so every element matches a case of the `switch`, `drawAllShapes` is
defined, and the number of lines emitted is the number of shapes; the other
three strategies emit one line per shape as well. -/
theorem draw_emits_one_line_per_shape
    (ps : List procedural_solution.Object) (hps : ∀ s ∈ ps, s.TagAgrees)
    (os : List OO_solution.Shape) (vs : List visitor_pattern.Shape)
    (ws : std_variant_visitor.Shapes) :
    ((∀ s ∈ ps, s.deref.getType = procedural_solution.circle ∨
        s.deref.getType = procedural_solution.square) ∧
      ∃ out, procedural_solution.drawAllShapes ps [] = some out ∧
        out.lines.length = ps.length) ∧
    (OO_solution.drawAllShapes os []).lines.length = os.length ∧
    (visitor_pattern.drawAllShapes vs []).lines.length = vs.length ∧
    (std_variant_visitor.drawAllShapes ws []).lines.length = ws.length := by
  refine ⟨⟨fun s hs => procedural_solution.tag_known_of_tagAgrees s (hps s hs), _,
    procedural_drawAllShapes_eq ps hps [], length_lines_labels _ ps⟩, ?_, ?_, ?_⟩
  · rw [oo_drawAllShapes_eq]; exact length_lines_labels _ os
  · rw [visitor_drawAllShapes_eq]; exact length_lines_labels _ vs
  · rw [variant_drawAllShapes_eq]; exact length_lines_labels _ ws

/-- Witness of C10 on the collection `[Circle(2.3), Square(1.2), Circle(4.1)]`. -/
theorem draw_emits_one_line_per_shape_witness :
    (∀ s ∈ procedural_solution.shapesA, s.TagAgrees) ∧
    ∃ out, procedural_solution.drawAllShapes procedural_solution.shapesA [] = some out ∧
      out.lines.length = 3 :=
  ⟨procedural_solution.shapesA_tagAgrees,
    (draw_emits_one_line_per_shape procedural_solution.shapesA
      procedural_solution.shapesA_tagAgrees OO_solution.shapesA visitor_pattern.shapesA
      std_variant_visitor.shapesA).1.2⟩

/-! ## Frame: the collection under `drawAllShapes` -/

/-- A loop whose body, at each position, reads the element there and changes
the stream as `f` does, leaving the vector alone, visits every element from
`i` on and ends with the vector as it was and the stream as `g` computes it
from the elements visited. -/
theorem forEachFrom_frame {α : Type} (body : Nat → World α → Option (World α))
    (f : α → Ostream → Option Ostream) (g : List α → Ostream → Option Ostream)
    (hbody : ∀ i w, body i w =
      (w.shapes[i]?).bind fun s => (f s w.cout).map fun o => ⟨w.shapes, o⟩)
    (hnil : ∀ o, g [] o = some o)
    (hcons : ∀ s r o, g (s :: r) o = (f s o).bind (g r))
    (shapes : List α) :
    ∀ (n i : Nat) (out : Ostream), i + n = shapes.length →
      World.forEachFrom body n i ⟨shapes, out⟩ =
        (g (shapes.drop i) out).map fun o => ⟨shapes, o⟩ := by
  intro n
  induction n with
  | zero =>
    intro i out h
    have hi : shapes.length ≤ i := by omega
    simp [World.forEachFrom, List.drop_eq_nil_of_le hi, hnil]
  | succ n ih =>
    intro i out h
    have hi : i < shapes.length := by omega
    rw [World.forEachFrom, hbody, List.drop_eq_getElem_cons hi, hcons]
    simp only [List.getElem?_eq_getElem hi, Option.some_bind]
    cases f shapes[i] out with
    | none => rfl
    | some o =>
      simp only [Option.map_some', Option.some_bind]
      exact ih (i + 1) o (by omega)

theorem forEach_frame {α : Type} (body : Nat → World α → Option (World α))
    (f : α → Ostream → Option Ostream) (g : List α → Ostream → Option Ostream)
    (hbody : ∀ i w, body i w =
      (w.shapes[i]?).bind fun s => (f s w.cout).map fun o => ⟨w.shapes, o⟩)
    (hnil : ∀ o, g [] o = some o)
    (hcons : ∀ s r o, g (s :: r) o = (f s o).bind (g r))
    (shapes : List α) (out : Ostream) :
    World.forEach body ⟨shapes, out⟩ = (g shapes out).map fun o => ⟨shapes, o⟩ := by
  have h := forEachFrom_frame body f g hbody hnil hcons shapes shapes.length 0 out (by simp)
  simpa [World.forEach] using h

theorem procedural_exec_eq (shapes : List procedural_solution.Object) (out : Ostream) :
    procedural_solution.exec_drawAllShapes ⟨shapes, out⟩ =
      (procedural_solution.drawAllShapes shapes out).map fun o => ⟨shapes, o⟩ := by
  refine forEach_frame _ procedural_solution.drawAllShapes.body
    procedural_solution.drawAllShapes ?_ (fun _ => rfl) (fun _ _ _ => rfl) shapes out
  intro i w
  simp only [procedural_solution.exec_body, procedural_solution.drawAllShapes.body]
  cases w.shapes[i]? with
  | none => rfl
  | some s =>
    simp only [Option.some_bind]
    split
    · cases procedural_solution.static_cast_Circle s <;> rfl
    · split
      · cases procedural_solution.static_cast_Square s <;> rfl
      · rfl

theorem oo_exec_eq (shapes : List OO_solution.Shape) (out : Ostream) :
    OO_solution.exec_drawAllShapes ⟨shapes, out⟩ =
      some ⟨shapes, OO_solution.drawAllShapes shapes out⟩ := by
  refine forEach_frame _ (fun (s : OO_solution.Shape) (o : Ostream) => some (s.draw o))
    (fun xs o => some (OO_solution.drawAllShapes xs o)) ?_ (fun _ => rfl) (fun _ _ _ => rfl)
    shapes out
  intro i w
  cases w.shapes[i]? with
  | none => rfl
  | some s => cases s <;> rfl

theorem visitor_exec_eq (shapes : List visitor_pattern.Shape) (out : Ostream) :
    visitor_pattern.exec_drawAllShapes ⟨shapes, out⟩ =
      some ⟨shapes, visitor_pattern.drawAllShapes shapes out⟩ := by
  refine forEach_frame _
    (fun (s : visitor_pattern.Shape) (o : Ostream) => some (s.accept visitor_pattern.Draw o))
    (fun xs o => some (visitor_pattern.drawAllShapes xs o)) ?_ (fun _ => rfl)
    (fun _ _ _ => rfl) shapes out
  intro i w
  cases w.shapes[i]? with
  | none => rfl
  | some s => cases s <;> rfl

theorem variant_exec_eq (shapes : std_variant_visitor.Shapes) (out : Ostream) :
    std_variant_visitor.exec_drawAllShapes ⟨shapes, out⟩ =
      some ⟨shapes, std_variant_visitor.drawAllShapes shapes out⟩ := by
  refine forEach_frame _ (fun s o => some (std.visit std_variant_visitor.Draw s o))
    (fun xs o => some (std_variant_visitor.drawAllShapes xs o)) ?_ (fun _ => rfl)
    (fun _ _ _ => rfl) shapes out
  intro i w
  cases w.shapes[i]? with
  | none => rfl
  | some s => cases s <;> rfl

/-- C11 (frame). In each of the four strategies, `drawAllShapes` run on the
program state ends (for `procedural_solution`, on objects whose tag names
their dynamic type) with the vector exactly as it was before the call, so
with the same length, the same elements in the same order, each with its kind,
its radius or side and its center; the stream is the stream before the call
with the emitted text after it. -/
theorem draw_leaves_collection_unchanged
    (ps : List procedural_solution.Object) (hps : ∀ s ∈ ps, s.TagAgrees)
    (os : List OO_solution.Shape) (vs : List visitor_pattern.Shape)
    (ws : std_variant_visitor.Shapes) (out : Ostream) :
    (∃ w, procedural_solution.exec_drawAllShapes ⟨ps, out⟩ = some w ∧ w.shapes = ps ∧
      procedural_solution.drawAllShapes ps out = some w.cout ∧ ∃ t, w.cout = out ++ t) ∧
    (∃ w, OO_solution.exec_drawAllShapes ⟨os, out⟩ = some w ∧ w.shapes = os ∧
      OO_solution.drawAllShapes os out = w.cout ∧ ∃ t, w.cout = out ++ t) ∧
    (∃ w, visitor_pattern.exec_drawAllShapes ⟨vs, out⟩ = some w ∧ w.shapes = vs ∧
      visitor_pattern.drawAllShapes vs out = w.cout ∧ ∃ t, w.cout = out ++ t) ∧
    (∃ w, std_variant_visitor.exec_drawAllShapes ⟨ws, out⟩ = some w ∧ w.shapes = ws ∧
      std_variant_visitor.drawAllShapes ws out = w.cout ∧ ∃ t, w.cout = out ++ t) := by
  refine ⟨⟨⟨ps, _⟩, ?_, rfl, procedural_drawAllShapes_eq ps hps out, _, rfl⟩,
    ⟨⟨os, _⟩, oo_exec_eq os out, rfl, rfl, _, oo_drawAllShapes_eq os out⟩,
    ⟨⟨vs, _⟩, visitor_exec_eq vs out, rfl, rfl, _, visitor_drawAllShapes_eq vs out⟩,
    ⟨⟨ws, _⟩, variant_exec_eq ws out, rfl, rfl, _, variant_drawAllShapes_eq ws out⟩⟩
  rw [procedural_exec_eq, procedural_drawAllShapes_eq ps hps out]
  rfl

/-- Witness of C11 on the collection `[Circle(2.3), Square(1.2), Circle(4.1)]`. -/
theorem draw_leaves_collection_unchanged_witness :
    (∀ s ∈ procedural_solution.shapesA, s.TagAgrees) ∧
    ∃ w, procedural_solution.exec_drawAllShapes ⟨procedural_solution.shapesA, []⟩ = some w ∧
      w.shapes = procedural_solution.shapesA ∧
      procedural_solution.drawAllShapes procedural_solution.shapesA [] = some w.cout ∧
      ∃ t, w.cout = [] ++ t :=
  ⟨procedural_solution.shapesA_tagAgrees,
    (draw_leaves_collection_unchanged procedural_solution.shapesA
      procedural_solution.shapesA_tagAgrees OO_solution.shapesA visitor_pattern.shapesA
      std_variant_visitor.shapesA []).1⟩

/-! ## The drivers -/

/-- C12. The drivers `first_solution`, `oo_solution` and `visitor_solution`
build `[Circle(2.3), Square(1.2), Circle(4.1)]` and emit `draw circle`,
`draw square`, `draw circle`.  The driver `variant_solution` builds
`[Circle{2.3}, Square{1.2}, Square{4.1}]`, a different collection, and emits
`draw circle`, `draw square`, `draw square`, which is not what the other
drivers emit; `main` runs `variant_solution` and so emits these lines too,
and returns `EXIT_SUCCESS`. -/
theorem variant_solution_draws_square_last :
    (procedural_solution.first_solution.shapes = procedural_solution.shapesA ∧
      (procedural_solution.first_solution []).map Ostream.lines =
        some ["draw circle", "draw square", "draw circle"]) ∧
    (OO_solution.oo_solution.shapes = OO_solution.shapesA ∧
      (OO_solution.oo_solution []).lines = ["draw circle", "draw square", "draw circle"]) ∧
    (visitor_pattern.visitor_solution.shapes = visitor_pattern.shapesA ∧
      (visitor_pattern.visitor_solution []).lines =
        ["draw circle", "draw square", "draw circle"]) ∧
    (std_variant_visitor.variant_solution.shapes =
        [.index0 (std_variant_visitor.Circle.create lit_2_3),
         .index1 (std_variant_visitor.Square.create lit_1_2),
         .index1 (std_variant_visitor.Square.create lit_4_1)] ∧
      std_variant_visitor.variant_solution.shapes ≠ std_variant_visitor.shapesA ∧
      (std_variant_visitor.variant_solution []).lines =
        ["draw circle", "draw square", "draw square"] ∧
      std_variant_visitor.variant_solution [] ≠ visitor_pattern.visitor_solution []) ∧
    ((Program.main []).1.lines = ["draw circle", "draw square", "draw square"] ∧
      (Program.main []).2 = EXIT_SUCCESS) := by
  refine ⟨⟨rfl, ?_⟩, ⟨rfl, ?_⟩, ⟨rfl, ?_⟩, ⟨rfl, ?_, ?_, ?_⟩, ?_, rfl⟩ <;> decide

/-! ## Draw and the payload -/

theorem map_eq_of_agree {α β γ : Type} (f : α → γ) (g : β → γ) (xs : List α) (ys : List β)
    (hlen : xs.length = ys.length)
    (h : ∀ (i : Nat) (h1 : i < xs.length) (h2 : i < ys.length), f xs[i] = g ys[i]) :
    xs.map f = ys.map g := by
  refine List.ext_getElem (by simp [hlen]) ?_
  intro i h1 h2
  simp only [List.getElem_map]
  exact h i (by simpa using h1) (by simpa using h2)

/-- C13. For every two collections of equal length whose shapes have the same
kind at every index, whatever their radius, side and center, `drawAllShapes`
leaves the same stream on both, in each of the four strategies (for
`procedural_solution`, on objects whose tag names their dynamic type, and
there the run is defined). -/
theorem draw_depends_on_kind_only
    (xp yp : List procedural_solution.Object)
    (hx : ∀ s ∈ xp, s.TagAgrees) (hy : ∀ s ∈ yp, s.TagAgrees)
    (hpl : xp.length = yp.length)
    (hpk : ∀ (i : Nat) (h1 : i < xp.length) (h2 : i < yp.length), xp[i].kind = yp[i].kind)
    (xo yo : List OO_solution.Shape) (hol : xo.length = yo.length)
    (hok : ∀ (i : Nat) (h1 : i < xo.length) (h2 : i < yo.length), xo[i].kind = yo[i].kind)
    (xv yv : List visitor_pattern.Shape) (hvl : xv.length = yv.length)
    (hvk : ∀ (i : Nat) (h1 : i < xv.length) (h2 : i < yv.length), xv[i].kind = yv[i].kind)
    (xw yw : std_variant_visitor.Shapes) (hwl : xw.length = yw.length)
    (hwk : ∀ (i : Nat) (h1 : i < xw.length) (h2 : i < yw.length),
      std_variant_visitor.kind xw[i] = std_variant_visitor.kind yw[i])
    (out : Ostream) :
    (∃ o, procedural_solution.drawAllShapes xp out = some o ∧
      procedural_solution.drawAllShapes yp out = some o) ∧
    OO_solution.drawAllShapes xo out = OO_solution.drawAllShapes yo out ∧
    visitor_pattern.drawAllShapes xv out = visitor_pattern.drawAllShapes yv out ∧
    std_variant_visitor.drawAllShapes xw out = std_variant_visitor.drawAllShapes yw out := by
  refine ⟨⟨_, procedural_drawAllShapes_eq xp hx out, ?_⟩, ?_, ?_, ?_⟩
  · rw [procedural_drawAllShapes_eq yp hy out, map_eq_of_agree _ _ xp yp hpl hpk]
  · rw [oo_drawAllShapes_eq, oo_drawAllShapes_eq, map_eq_of_agree _ _ xo yo hol hok]
  · rw [visitor_drawAllShapes_eq, visitor_drawAllShapes_eq, map_eq_of_agree _ _ xv yv hvl hvk]
  · rw [variant_drawAllShapes_eq, variant_drawAllShapes_eq, map_eq_of_agree _ _ xw yw hwl hwk]

/-- Witness of C13: a single Circle of radius 2.3 against a single Circle of
radius 4.1, in each strategy. -/
theorem draw_depends_on_kind_only_witness :
    (∀ s ∈ [procedural_solution.make_unique_Circle lit_2_3], s.TagAgrees) ∧
    (∀ s ∈ [procedural_solution.make_unique_Circle lit_4_1], s.TagAgrees) ∧
    lit_2_3 ≠ lit_4_1 ∧
    procedural_solution.drawAllShapes [procedural_solution.make_unique_Circle lit_2_3] [] =
        procedural_solution.drawAllShapes [procedural_solution.make_unique_Circle lit_4_1] [] ∧
    std_variant_visitor.drawAllShapes [.index0 (std_variant_visitor.Circle.create lit_2_3)] [] =
      std_variant_visitor.drawAllShapes [.index0 (std_variant_visitor.Circle.create lit_4_1)]
        [] := by
  have h := draw_depends_on_kind_only
    [procedural_solution.make_unique_Circle lit_2_3]
    [procedural_solution.make_unique_Circle lit_4_1]
    (by intro s hs; rw [List.mem_singleton.mp hs]; rfl)
    (by intro s hs; rw [List.mem_singleton.mp hs]; rfl)
    rfl
    (by intro i h1 h2
        have hi : i = 0 := by simpa using h1
        subst hi; rfl)
    [.ofCircle (OO_solution.Circle.create lit_2_3)]
    [.ofCircle (OO_solution.Circle.create lit_4_1)]
    rfl
    (by intro i h1 h2
        have hi : i = 0 := by simpa using h1
        subst hi; rfl)
    [.ofCircle (visitor_pattern.Circle.create lit_2_3)]
    [.ofCircle (visitor_pattern.Circle.create lit_4_1)]
    rfl
    (by intro i h1 h2
        have hi : i = 0 := by simpa using h1
        subst hi; rfl)
    [.index0 (std_variant_visitor.Circle.create lit_2_3)]
    [.index0 (std_variant_visitor.Circle.create lit_4_1)]
    rfl
    (by intro i h1 h2
        have hi : i = 0 := by simpa using h1
        subst hi; rfl)
    []
  obtain ⟨⟨o, h1, h2⟩, _, _, h4⟩ := h
  exact ⟨by intro s hs; rw [List.mem_singleton.mp hs]; rfl,
    by intro s hs; rw [List.mem_singleton.mp hs]; rfl, by decide, h1.trans h2.symm, h4⟩

/-! ## Tag and dynamic type -/

theorem procedural_solution.circle_ne_square :
    procedural_solution.circle ≠ procedural_solution.square := by decide

/-- C14, as amended. An object made by `Circle(radius)` has `getType()` equal
to `circle` and not to `square`, one made by `Square(side)` has it equal to
`square` and not to `circle`; so for every object made by these two
constructors the tag is `circle` exactly when the object is a Circle and
`square` exactly when it is a Square, and the cast of the `switch` case its
tag selects is a cast to its own class.  The functions the source declares
leave the objects, and so the tags, as they are: the two `draw` functions on
any state, and `drawAllShapes` run on a vector of constructed objects. -/
theorem constructed_tag_names_dynamic_type (k : Kind) (p : Double)
    (ks : List (Kind × Double)) (out : Ostream)
    (c : procedural_solution.Circle) (s : procedural_solution.Square)
    (w : World procedural_solution.Object) :
    ((procedural_solution.make_unique_Circle p).deref.getType = procedural_solution.circle ∧
      (procedural_solution.make_unique_Circle p).deref.getType ≠ procedural_solution.square ∧
      (procedural_solution.make_unique_Square p).deref.getType = procedural_solution.square ∧
      (procedural_solution.make_unique_Square p).deref.getType ≠
        procedural_solution.circle) ∧
    (((procedural_solution.ofKind k p).deref.getType = procedural_solution.circle ↔
        ∃ c, procedural_solution.ofKind k p = .ofCircle c) ∧
      ((procedural_solution.ofKind k p).deref.getType = procedural_solution.square ↔
        ∃ s, procedural_solution.ofKind k p = .ofSquare s) ∧
      (procedural_solution.ofKind k p).TagAgrees) ∧
    (((procedural_solution.ofKind k p).deref.getType = procedural_solution.circle →
        ∃ c, procedural_solution.static_cast_Circle (procedural_solution.ofKind k p) = some c ∧
          procedural_solution.ofKind k p = .ofCircle c) ∧
      ((procedural_solution.ofKind k p).deref.getType = procedural_solution.square →
        ∃ s, procedural_solution.static_cast_Square (procedural_solution.ofKind k p) = some s ∧
          procedural_solution.ofKind k p = .ofSquare s)) ∧
    ((procedural_solution.exec_draw_Circle c w).shapes = w.shapes ∧
      (procedural_solution.exec_draw_Square s w).shapes = w.shapes) ∧
    ∃ w1, procedural_solution.exec_drawAllShapes
        ⟨ks.map (fun q => procedural_solution.ofKind q.1 q.2), out⟩ = some w1 ∧
      w1.shapes = ks.map (fun q => procedural_solution.ofKind q.1 q.2) ∧
      w1.shapes.map (fun s => s.deref.getType) =
        ks.map (fun q => (procedural_solution.ofKind q.1 q.2).deref.getType) := by
  refine ⟨⟨rfl, procedural_solution.circle_ne_square, rfl,
    procedural_solution.circle_ne_square.symm⟩, ?_, ?_, ⟨rfl, rfl⟩, ?_⟩
  · cases k
    · exact ⟨⟨fun _ => ⟨_, rfl⟩, fun _ => rfl⟩,
        ⟨fun h => absurd h procedural_solution.circle_ne_square, fun ⟨s, h⟩ => by cases h⟩,
        rfl⟩
    · exact ⟨⟨fun h => absurd h procedural_solution.circle_ne_square.symm,
          fun ⟨c, h⟩ => by cases h⟩,
        ⟨fun _ => ⟨_, rfl⟩, fun _ => rfl⟩, rfl⟩
  · cases k
    · exact ⟨fun _ => ⟨_, rfl, rfl⟩, fun h => absurd h procedural_solution.circle_ne_square⟩
    · exact ⟨fun h => absurd h procedural_solution.circle_ne_square.symm,
        fun _ => ⟨_, rfl, rfl⟩⟩
  · have h := procedural_exec_eq (ks.map (fun q => procedural_solution.ofKind q.1 q.2)) out
    rw [procedural_drawAllShapes_eq _ (procedural_solution.ofKind_tagAgrees ks) out] at h
    simp only [Option.map_some'] at h
    exact ⟨_, h, rfl, by simp [List.map_map]⟩

/-- C14, as stated, fails.  The Circle made by `Circle(2.3)`, after the
assignment `*a = *b` from the Square made by `Square(1.2)` (the implicit copy
assignment of `Shape`), is still a Circle with radius 2.3 and is not a Square,
but its `getType()` is `square` and no longer `circle`: the tag was changed
after construction and does not name the dynamic type, and the cast that the
`case square` of `drawAllShapes` applies to it is a cast to a class that is
not its own.  Likewise the implicit copy constructor of `Shape` makes, from
that Circle, an object of class `Shape` whose `getType()` is `circle`. -/
theorem copy_assignment_retags_circle :
    (procedural_solution.make_unique_Circle lit_2_3).deref.getType =
        procedural_solution.circle ∧
    ((procedural_solution.make_unique_Circle lit_2_3).assign
        (procedural_solution.make_unique_Square lit_1_2)).deref.getType =
      procedural_solution.square ∧
    ((procedural_solution.make_unique_Circle lit_2_3).assign
        (procedural_solution.make_unique_Square lit_1_2)).deref.getType ≠
      procedural_solution.circle ∧
    (procedural_solution.make_unique_Circle lit_2_3).assign
        (procedural_solution.make_unique_Square lit_1_2) =
      .ofCircle { toShape := { type_ := procedural_solution.square }, radius_ := lit_2_3,
                  center_ := Point.zero } ∧
    (¬ ∃ s, (procedural_solution.make_unique_Circle lit_2_3).assign
        (procedural_solution.make_unique_Square lit_1_2) = .ofSquare s) ∧
    ¬ ((procedural_solution.make_unique_Circle lit_2_3).assign
        (procedural_solution.make_unique_Square lit_1_2)).TagAgrees ∧
    procedural_solution.static_cast_Square
        ((procedural_solution.make_unique_Circle lit_2_3).assign
          (procedural_solution.make_unique_Square lit_1_2)) = none ∧
    procedural_solution.drawAllShapes
        [(procedural_solution.make_unique_Circle lit_2_3).assign
          (procedural_solution.make_unique_Square lit_1_2)] [] = none ∧
    (procedural_solution.Shape.copy_construct
        (procedural_solution.make_unique_Circle lit_2_3).deref).getType =
      procedural_solution.circle := by
  refine ⟨rfl, rfl, procedural_solution.circle_ne_square.symm, rfl, ?_, ?_, rfl, rfl, rfl⟩
  · rintro ⟨s, h⟩
    cases h
  · exact procedural_solution.circle_ne_square.symm

/-! ## Capability-interface dispatch -/

theorem oo_kind_ofKind (ks : List (Kind × Double)) :
    (ks.map (fun k => OO_solution.ofKind k.1 k.2)).map OO_solution.Shape.kind =
      ks.map Prod.fst := by
  rw [List.map_map]
  exact List.map_congr_left (fun k _ => by obtain ⟨k, p⟩ := k; cases k <;> rfl)

/-- C15. One virtual `draw()` call has the effect of the `switch` case and of
`accept` followed by `visit` on an object of the same kind; for every
collection of `OO_solution`, every collection of `procedural_solution` (tags
naming the dynamic types) and every collection of `visitor_pattern` with the
same kinds in the same order, `OO_solution::drawAllShapes` leaves the stream
exactly as the other two do, and the procedural run is defined; in particular
so for the collections built from any one sequence of kinds. -/
theorem oo_dispatch_eq_tag_switch_and_visitor
    (os : List OO_solution.Shape) (ps : List procedural_solution.Object)
    (hps : ∀ s ∈ ps, s.TagAgrees) (vs : List visitor_pattern.Shape)
    (hp : ps.map procedural_solution.Object.kind = os.map OO_solution.Shape.kind)
    (hv : vs.map visitor_pattern.Shape.kind = os.map OO_solution.Shape.kind)
    (out : Ostream) :
    (procedural_solution.drawAllShapes ps out = some (OO_solution.drawAllShapes os out) ∧
      visitor_pattern.drawAllShapes vs out = OO_solution.drawAllShapes os out) ∧
    (∀ (o : OO_solution.Shape) (v : visitor_pattern.Shape), o.kind = v.kind →
      o.draw out = v.accept visitor_pattern.Draw out) ∧
    (∀ (o : OO_solution.Shape) (s : procedural_solution.Object), s.TagAgrees →
      o.kind = s.kind → procedural_solution.drawAllShapes.body s out = some (o.draw out)) ∧
    ∀ ks qs rs : List (Kind × Double), qs.map Prod.fst = ks.map Prod.fst →
      rs.map Prod.fst = ks.map Prod.fst →
      procedural_solution.drawAllShapes
          (qs.map (fun k => procedural_solution.ofKind k.1 k.2)) out =
        some (OO_solution.drawAllShapes (ks.map (fun k => OO_solution.ofKind k.1 k.2)) out) ∧
      visitor_pattern.drawAllShapes (rs.map (fun k => visitor_pattern.ofKind k.1 k.2)) out =
        OO_solution.drawAllShapes (ks.map (fun k => OO_solution.ofKind k.1 k.2)) out := by
  refine ⟨⟨?_, ?_⟩, ?_, ?_, ?_⟩
  · rw [procedural_drawAllShapes_eq ps hps, oo_drawAllShapes_eq, hp]
  · rw [visitor_drawAllShapes_eq, oo_drawAllShapes_eq, hv]
  · intro o v h
    cases o <;> cases v <;> first | rfl | cases h
  · intro o s hs h
    rw [procedural_solution.body_eq s hs, ← h]
    cases o <;>
      simp only [OO_solution.Shape.draw, OO_solution.Circle.draw, OO_solution.Square.draw,
        put_circle, put_square] <;> rfl
  · intro ks qs rs hq hr
    constructor
    · rw [procedural_drawAllShapes_eq _ (procedural_solution.ofKind_tagAgrees qs),
        oo_drawAllShapes_eq, procedural_kind_ofKind, oo_kind_ofKind, hq]
    · rw [visitor_drawAllShapes_eq, oo_drawAllShapes_eq, visitor_kind_ofKind, oo_kind_ofKind,
        hr]

/-- Witness of C15 on the three collections `[Circle(2.3), Square(1.2), Circle(4.1)]`. -/
theorem oo_dispatch_eq_tag_switch_and_visitor_witness :
    (∀ s ∈ procedural_solution.shapesA, s.TagAgrees) ∧
    procedural_solution.shapesA.map procedural_solution.Object.kind =
      OO_solution.shapesA.map OO_solution.Shape.kind ∧
    visitor_pattern.shapesA.map visitor_pattern.Shape.kind =
      OO_solution.shapesA.map OO_solution.Shape.kind ∧
    procedural_solution.drawAllShapes procedural_solution.shapesA [] =
      some (OO_solution.drawAllShapes OO_solution.shapesA []) ∧
    visitor_pattern.drawAllShapes visitor_pattern.shapesA [] =
      OO_solution.drawAllShapes OO_solution.shapesA [] :=
  ⟨procedural_solution.shapesA_tagAgrees, by decide, by decide,
    (oo_dispatch_eq_tag_switch_and_visitor OO_solution.shapesA procedural_solution.shapesA
      procedural_solution.shapesA_tagAgrees visitor_pattern.shapesA (by decide) (by decide)
      []).1⟩
